import Mathlib

/-!
Verification development for the file-utility web application
(pages/1_Encrypt_Decrypt_Tool.py, pages/2_Zip_File_Tool.py, Home.py).

The application wraps two external command-line tools (a cipher tool and an
archive tool).  We embed the Python run logic shallowly: pure helpers become
Lean functions; the effectful run block becomes a function from the request
inputs and an abstract environment (the outcome of the external process, the
state of the output file afterwards, whether workspace removal fails) to a
record holding the final session state, a trace of the effects performed, and
whether the temporary workspace directory still exists at the end.
-/

namespace FileUtility

/-- A file's content: a list of byte values (each < 256 for real files). -/
abbrev Bytes := List Nat

/- ### Python string primitives, modelled over the character data -/

/-- Python `str.lower()` (ASCII behaviour, which is all the code relies on). -/
def strToLower (s : String) : String := String.mk (s.data.map Char.toLower)

/-- Python `str.endswith(suffix)`. -/
def strEndsWith (s suffix : String) : Bool := suffix.data.isSuffixOf s.data

/-- Python whitespace test used by `str.strip()`. -/
def isPySpace (c : Char) : Bool :=
  c = ' ' || c = '\t' || c = '\n' || c = '\r' || c = '\x0b' || c = '\x0c'

/-- Python `str.strip()`: remove leading and trailing whitespace. -/
def strip (s : String) : String :=
  String.mk (((s.data.dropWhile isPySpace).reverse.dropWhile isPySpace).reverse)

/-- Containment of `pat` in `hay` as character lists (Python `pat in hay`). -/
def containsSub (hay pat : List Char) : Bool :=
  if pat.isPrefixOf hay then true
  else
    match hay with
    | [] => false
    | _ :: t => containsSub t pat

/-- Python `pat in s` for strings. -/
def strContains (s pat : String) : Bool := containsSub s.data pat.data

/- ### Configuration constants (module-level constants of the two pages) -/

def OPENSSL_COMMAND : String := "openssl"

def ENCRYPTION_CIPHER : String := "aes-256-cbc"

def PREVIEW_SIZE_LIMIT : Nat := 5 * 1024 * 1024

def PREVIEW_LINES_LIMIT : Nat := 100

def ZIP_COMMAND : String := "zip"

/-- The literal `timeout=60` passed to `subprocess.run` in `run_openssl_command`. -/
def OPENSSL_TIMEOUT : Nat := 60

/-- The literal `timeout=120` passed to `subprocess.run` in `run_zip_command`. -/
def ZIP_TIMEOUT : Nat := 120

/- ### The external process: abstract outcome of `subprocess.run` -/

/-- What the `subprocess.run` call can do: return normally with an exit code
and captured output, raise `TimeoutExpired` (in which case Python has killed
the child), raise `FileNotFoundError`, or raise some other exception. -/
inductive ProcOutcome where
  | completed (returncode : Int) (stdout stderr : String)
  | timedOut
  | notFound
  | raised (msg : String)
deriving DecidableEq, Repr

/-- The `(success, stdout, stderr)` triple returned by the two wrapper
functions. -/
structure RunResult where
  success : Bool
  stdout : String
  stderr : String
deriving DecidableEq, Repr

/-- `run_openssl_command`, outcome part: how the wrapper classifies what the
subprocess did.  `success = (returncode == 0)`; every exception path returns
`False` with a diagnostic instead of propagating. -/
def run_openssl_result (outcome : ProcOutcome) : RunResult :=
  match outcome with
  | ProcOutcome.completed rc out err =>
      { success := rc == 0, stdout := strip out, stderr := strip err }
  | ProcOutcome.timedOut =>
      { success := false, stdout := "", stderr := "Timeout expired" }
  | ProcOutcome.notFound =>
      { success := false, stdout := "", stderr := "Command not found: " ++ OPENSSL_COMMAND }
  | ProcOutcome.raised e =>
      { success := false, stdout := "", stderr := e }

/-- `run_zip_command`, outcome part (same structure as the cipher wrapper). -/
def run_zip_result (outcome : ProcOutcome) : RunResult :=
  match outcome with
  | ProcOutcome.completed rc out err =>
      { success := rc == 0, stdout := strip out, stderr := strip err }
  | ProcOutcome.timedOut =>
      { success := false, stdout := "", stderr := "Timeout expired" }
  | ProcOutcome.notFound =>
      { success := false, stdout := "", stderr := "Command not found: " ++ ZIP_COMMAND }
  | ProcOutcome.raised e =>
      { success := false, stdout := "", stderr := e }

/- ### Argument construction -/

/-- `os.path.join` for the simple dir/name case used by both pages. -/
def path_join (dir name : String) : String := dir ++ "/" ++ name

/-- The `args` list built in the cipher page's run block:
`['enc', '-aes-256-cbc', '-pbkdf2']`, then `'-d'` for Decrypt or `'-p'`
for Encrypt, then `['-in', input, '-out', output]`. -/
inductive Operation where
  | encrypt
  | decrypt
deriving DecidableEq, Repr

def cipher_args (op : Operation) (input_file_path output_file_path : String) :
    List String :=
  ["enc", "-" ++ ENCRYPTION_CIPHER, "-pbkdf2"]
    ++ (match op with
        | Operation.decrypt => ["-d"]
        | Operation.encrypt => ["-p"])
    ++ ["-in", input_file_path, "-out", output_file_path]

/-- The full command vector `run_openssl_command` passes to `subprocess.run`:
`[OPENSSL_COMMAND] + args` extended with `['-pass', 'pass:' + password]`. -/
def openssl_full_command (args : List String) (password : String) : List String :=
  (OPENSSL_COMMAND :: args) ++ ["-pass", "pass:" ++ password]

/-- The `args` list built in the archive page's run block:
`['-j', '-e', '-P', password, output_file_path, input_file_path]`. -/
def zip_args (password output_file_path input_file_path : String) : List String :=
  ["-j", "-e", "-P", password, output_file_path, input_file_path]

/-- The full command vector `run_zip_command` passes to `subprocess.run`. -/
def zip_full_command (args : List String) : List String := ZIP_COMMAND :: args

/- ### Stderr classification in the archive wrapper -/

/-- The error message `run_zip_command` displays on a non-zero exit:
either the clearer "nothing to zip" form (when the lowered stderr contains
"nothing to do") or the generic form.  Both embed the stripped stderr. -/
inductive ZipFailureMsg where
  | nothingToZip (returncode : Int) (strippedStderr : String)
  | generic (returncode : Int) (strippedStderr : String)
deriving DecidableEq, Repr

/-- Classification of a non-zero-exit stderr in `run_zip_command`. -/
def zip_failure_message (returncode : Int) (stderr : String) : ZipFailureMsg :=
  if strContains (strToLower stderr) "nothing to do" then
    ZipFailureMsg.nothingToZip returncode (strip stderr)
  else
    ZipFailureMsg.generic returncode (strip stderr)

/-- The display string of the failure message (the `st.error` f-string,
with the exit code rendered by `toString`). -/
def render_zip_failure (m : ZipFailureMsg) : String :=
  match m with
  | ZipFailureMsg.nothingToZip rc err =>
      "Zip Error (Exit Code " ++ toString rc
        ++ "): Nothing to zip. Check input file path.\n```\n" ++ err ++ "\n```"
  | ZipFailureMsg.generic rc err =>
      "Zip Error (Exit Code " ++ toString rc ++ "):\n```\n" ++ err ++ "\n```"

/- ### The run block of each page, as a trace-producing function -/

/-- Effects the run block performs, in order.  `spawn` records the full
command vector handed to `subprocess.run` together with its timeout bound. -/
inductive Event where
  | validationError (msg : String)
  | mkdtemp
  | wroteInput (path : String) (content : Bytes)
  | spawn (command : List String) (timeout : Nat)
  | suffixWarning (actualName : String)
  | removedFile (path : String)
  | removedTempDir
  | cleanupWarning (msg : String)
  | unexpectedFault (msg : String)
deriving DecidableEq, Repr

/-- The parts of the world the run block does not control: what the external
process does, whether (and with what content) the expected output file exists
on disk after the process returned, whether an unexpected exception is raised
inside the `try` block, and whether `shutil.rmtree` fails in the `finally`. -/
structure Env where
  proc : ProcOutcome
  outputFileAfter : Option Bytes
  raiseInTry : Option String
  rmtreeFails : Bool
deriving DecidableEq, Repr

/-- Operation status held in session state. -/
inductive Status where
  | success
  | fail
deriving DecidableEq, Repr

/-- Session fields of the cipher page: `output_content`, `output_filename`,
`operation_status`. -/
structure CipherSession where
  output_content : Option Bytes
  output_filename : Option String
  operation_status : Option Status
deriving DecidableEq, Repr

/-- Result of one pass through the cipher page's run block. -/
structure CipherRun where
  session : CipherSession
  events : List Event
  tempDirExists : Bool
deriving DecidableEq, Repr

/-- The input validation of the cipher page's run block, in source order:
empty password, then password mismatch (Encrypt only), then empty output
filename.  `some msg` means `st.error(msg); st.stop()`. -/
def cipher_validate (op : Operation)
    (password password_confirm output_filename_user : String) : Option String :=
  if password = "" then some "Password cannot be empty."
  else if op = Operation.encrypt ∧ password ≠ password_confirm then
    some "Passwords do not match."
  else if output_filename_user = "" then some "Output filename cannot be empty."
  else none

/-- The `finally` block of the cipher page: if the temporary directory was
created and still exists, remove it; a failing removal is reported as a
warning (`st.warning`), never escalated. -/
def cipher_finally (rmtreeFails : Bool) (r : CipherRun) : CipherRun :=
  if r.tempDirExists then
    if rmtreeFails then
      { r with events := r.events
          ++ [Event.cleanupWarning "Could not automatically clean up temporary directory"] }
    else
      { r with events := r.events ++ [Event.removedTempDir], tempDirExists := false }
  else r

/-- The `try` block of the cipher page: create the workspace, stage the
upload, build the argument vector, invoke the wrapper, and fill the session
according to the success test `success and os.path.exists(output_file_path)`.
An unexpected exception lands in the `except` clause, which records the fault
and marks the operation failed.  (`TMP` stands for the fresh
`tempfile.mkdtemp()` directory.) -/
def cipher_try (op : Operation) (uploadedName : String) (uploadedBytes : Bytes)
    (password output_filename_user : String) (env : Env) : CipherRun :=
  let temp_dir := "TMP"
  let input_file_path := path_join temp_dir uploadedName
  let output_file_path := path_join temp_dir output_filename_user
  match env.raiseInTry with
  | some msg =>
      { session := { output_content := none, output_filename := none,
                     operation_status := some Status.fail },
        events := [Event.mkdtemp, Event.unexpectedFault msg],
        tempDirExists := true }
  | none =>
      let command := openssl_full_command
        (cipher_args op input_file_path output_file_path) password
      let r := run_openssl_result env.proc
      let events := [Event.mkdtemp, Event.wroteInput input_file_path uploadedBytes,
                     Event.spawn command OPENSSL_TIMEOUT]
      if r.success && env.outputFileAfter.isSome then
        { session := { output_content := env.outputFileAfter,
                       output_filename := some output_filename_user,
                       operation_status := some Status.success },
          events := events,
          tempDirExists := true }
      else
        { session := { output_content := none, output_filename := none,
                       operation_status := some Status.fail },
          events := events
            ++ (if env.outputFileAfter.isSome then [Event.removedFile output_file_path]
                else []),
          tempDirExists := true }

/-- One pass through the cipher page's run block (`if run_button and
uploaded_file:`): reset the session fields, validate (aborting via `st.stop`
before the `try` block on failure), then run the `try`/`except`/`finally`. -/
def cipher_run (op : Operation) (uploadedName : String) (uploadedBytes : Bytes)
    (password password_confirm output_filename_user : String) (env : Env) :
    CipherRun :=
  match cipher_validate op password password_confirm output_filename_user with
  | some msg =>
      { session := { output_content := none, output_filename := none,
                     operation_status := none },
        events := [Event.validationError msg],
        tempDirExists := false }
  | none =>
      cipher_finally env.rmtreeFails
        (cipher_try op uploadedName uploadedBytes password output_filename_user env)

/-- Session fields of the archive page: `output_zip_content`,
`output_zip_filename`, `zip_operation_status`. -/
structure ZipRunSession where
  output_zip_content : Option Bytes
  output_zip_filename : Option String
  zip_operation_status : Option Status
deriving DecidableEq, Repr

/-- Result of one pass through the archive page's run block. -/
structure ZipRun where
  session : ZipRunSession
  events : List Event
  tempDirExists : Bool
deriving DecidableEq, Repr

/-- The input validation of the archive page's run block, in source order:
empty password, then password mismatch (always checked), then empty output
filename. -/
def zip_validate (password password_confirm output_filename_user : String) :
    Option String :=
  if password = "" then some "Password cannot be empty."
  else if password ≠ password_confirm then some "Passwords do not match."
  else if output_filename_user = "" then some "Output ZIP filename cannot be empty."
  else none

/-- The filename normalization of the archive page: append `.zip` when the
lowered name does not already end with it. -/
def actual_output_filename (output_filename_user : String) : String :=
  if strEndsWith (strToLower output_filename_user) ".zip" = false then
    output_filename_user ++ ".zip"
  else output_filename_user

/-- The `finally` block of the archive page (same shape as the cipher one). -/
def zip_finally (rmtreeFails : Bool) (r : ZipRun) : ZipRun :=
  if r.tempDirExists then
    if rmtreeFails then
      { r with events := r.events
          ++ [Event.cleanupWarning "Could not clean up temp dir"] }
    else
      { r with events := r.events ++ [Event.removedTempDir], tempDirExists := false }
  else r

/-- The `try` block of the archive page.  `actual` is the (possibly
normalized) output filename; `warned` records whether the `.zip`-suffix
warning was shown just before the `try`. -/
def zip_try (uploadedName : String) (uploadedBytes : Bytes)
    (actual : String) (warned : Bool) (password : String) (env : Env) : ZipRun :=
  let temp_dir := "TMP"
  let input_file_path := path_join temp_dir uploadedName
  let output_file_path := path_join temp_dir actual
  let warnEvents := if warned then [Event.suffixWarning actual] else []
  match env.raiseInTry with
  | some msg =>
      { session := { output_zip_content := none, output_zip_filename := none,
                     zip_operation_status := some Status.fail },
        events := warnEvents ++ [Event.mkdtemp, Event.unexpectedFault msg],
        tempDirExists := true }
  | none =>
      let command := zip_full_command (zip_args password output_file_path input_file_path)
      let r := run_zip_result env.proc
      let events := warnEvents
        ++ [Event.mkdtemp, Event.wroteInput input_file_path uploadedBytes,
            Event.spawn command ZIP_TIMEOUT]
      if r.success && env.outputFileAfter.isSome then
        { session := { output_zip_content := env.outputFileAfter,
                       output_zip_filename := some actual,
                       zip_operation_status := some Status.success },
          events := events,
          tempDirExists := true }
      else
        { session := { output_zip_content := none, output_zip_filename := none,
                       zip_operation_status := some Status.fail },
          events := events
            ++ (if env.outputFileAfter.isSome then [Event.removedFile output_file_path]
                else []),
          tempDirExists := true }

/-- One pass through the archive page's run block. -/
def zip_run (uploadedName : String) (uploadedBytes : Bytes)
    (password password_confirm output_filename_user : String) (env : Env) : ZipRun :=
  match zip_validate password password_confirm output_filename_user with
  | some msg =>
      { session := { output_zip_content := none, output_zip_filename := none,
                     zip_operation_status := none },
        events := [Event.validationError msg],
        tempDirExists := false }
  | none =>
      zip_finally env.rmtreeFails
        (zip_try uploadedName uploadedBytes (actual_output_filename output_filename_user)
          (!(strEndsWith (strToLower output_filename_user) ".zip")) password env)

/- ### get_file_preview -/

/-- Is `b` a UTF-8 continuation byte (0x80-0xBF)? -/
def contByte (b : Nat) : Bool := 0x80 ≤ b && b ≤ 0xBF

/-- Shape of a UTF-8 sequence from its leading byte: number of continuation
bytes and the admissible range of the first continuation byte (strict
decoding as Python's `bytes.decode('utf-8')`: no overlong forms, no
surrogates, nothing above U+10FFFF). -/
def utf8Shape (b : Nat) : Option (Nat × Nat × Nat) :=
  if b ≤ 0x7F then some (0, 0, 0)
  else if 0xC2 ≤ b && b ≤ 0xDF then some (1, 0x80, 0xBF)
  else if b == 0xE0 then some (2, 0xA0, 0xBF)
  else if 0xE1 ≤ b && b ≤ 0xEC then some (2, 0x80, 0xBF)
  else if b == 0xED then some (2, 0x80, 0x9F)
  else if 0xEE ≤ b && b ≤ 0xEF then some (2, 0x80, 0xBF)
  else if b == 0xF0 then some (3, 0x90, 0xBF)
  else if 0xF1 ≤ b && b ≤ 0xF3 then some (3, 0x80, 0xBF)
  else if b == 0xF4 then some (3, 0x80, 0x8F)
  else none

/-- Strict UTF-8 decoding of a byte list (Python `bytes.decode('utf-8')`);
`none` models `UnicodeDecodeError`. -/
def utf8Decode : List Nat → Option (List Char)
  | [] => some []
  | b :: rest =>
    match utf8Shape b with
    | none => none
    | some (0, _, _) => (utf8Decode rest).map (fun cs => Char.ofNat b :: cs)
    | some (1, lo, hi) =>
      match rest with
      | c1 :: rest2 =>
        if lo ≤ c1 && c1 ≤ hi then
          (utf8Decode rest2).map (fun cs => Char.ofNat ((b % 32) * 64 + c1 % 64) :: cs)
        else none
      | [] => none
    | some (2, lo, hi) =>
      match rest with
      | c1 :: c2 :: rest2 =>
        if (lo ≤ c1 && c1 ≤ hi) && contByte c2 then
          (utf8Decode rest2).map
            (fun cs => Char.ofNat ((b % 16) * 4096 + (c1 % 64) * 64 + c2 % 64) :: cs)
        else none
      | _ => none
    | some (_, lo, hi) =>
      match rest with
      | c1 :: c2 :: c3 :: rest2 =>
        if ((lo ≤ c1 && c1 ≤ hi) && contByte c2) && contByte c3 then
          (utf8Decode rest2).map
            (fun cs => Char.ofNat
              ((b % 8) * 262144 + (c1 % 64) * 4096 + (c2 % 64) * 64 + c3 % 64) :: cs)
        else none
      | _ => none

/-- Python `str.splitlines()` over the character list (handling the `\n`,
`\r` and `\r\n` boundaries the application can encounter): accumulate the
current line (reversed) and cut at each boundary; a trailing boundary does
not produce a trailing empty line. -/
def splitlinesGo (cur : List Char) : List Char → List (List Char)
  | [] => if cur.isEmpty then [] else [cur.reverse]
  | '\r' :: '\n' :: rest => cur.reverse :: splitlinesGo [] rest
  | '\r' :: rest => cur.reverse :: splitlinesGo [] rest
  | '\n' :: rest => cur.reverse :: splitlinesGo [] rest
  | c :: rest => splitlinesGo (c :: cur) rest

def splitlines (cs : List Char) : List (List Char) := splitlinesGo [] cs

/-- What `get_file_preview` reports (constructors tag the four return
branches; the page renders them into display strings). -/
inductive Preview where
  | emptyFile
  | tooLarge (size : Nat)
  | textPreview (lines : List (List Char)) (truncated : Bool)
  | hexPreview (firstBytes : Bytes)
deriving DecidableEq, Repr

/-- `get_file_preview`: empty-file notice for a zero-byte file; a size notice
when the size exceeds `PREVIEW_SIZE_LIMIT`; otherwise read up to the limit
and, when the mime guess says text and UTF-8 decoding succeeds, show at most
`PREVIEW_LINES_LIMIT` lines, else a hex preview of the first 256 bytes.
`is_likely_text` abstracts `mimetypes.guess_type(path)` starting with
`text`. -/
def get_file_preview (content : Bytes) (is_likely_text : Bool) : Preview :=
  let file_size := content.length
  if file_size = 0 then Preview.emptyFile
  else if file_size > PREVIEW_SIZE_LIMIT then Preview.tooLarge file_size
  else
    let content_bytes := content.take PREVIEW_SIZE_LIMIT
    match (if is_likely_text then utf8Decode content_bytes else none) with
    | some cs =>
        let lines := splitlines cs
        if lines.length > PREVIEW_LINES_LIMIT then
          Preview.textPreview (lines.take PREVIEW_LINES_LIMIT) true
        else Preview.textPreview lines false
    | none => Preview.hexPreview (content_bytes.take 256)

/- ### The external cipher tool, modelled from the spec -/

/-- Modelled from the spec: a key byte derived from the password, standing in
for the cipher tool's PBKDF2 key derivation (the external `openssl` binary is
not part of this repository's sources). -/
def keyByte (password : String) : Nat :=
  ((password.data.map Char.toNat).sum + 7) % 256

/-- Modelled from the spec: the external cipher tool, an abstract symmetric
cipher with password-based key derivation (spec section 6 and glossary); the
binary itself is not part of this repository.  Encryption and decryption are
mutually inverse byte-wise transformations under the same password. -/
def cipher_tool (op : Operation) (password : String) (input : Bytes) : Bytes :=
  match op with
  | Operation.encrypt => input.map (fun b => (b + keyByte password) % 256)
  | Operation.decrypt => input.map (fun b => (b + (256 - keyByte password)) % 256)

/-- Modelled from the spec: the environment produced by a faithful run of the
external cipher tool on staged input bytes — exit code 0 and the transformed
bytes present at the output path. -/
def cipher_env (op : Operation) (password : String) (inputBytes : Bytes) : Env :=
  { proc := ProcOutcome.completed 0 "" "",
    outputFileAfter := some (cipher_tool op password inputBytes),
    raiseInTry := none,
    rmtreeFails := false }

/- ### Clear actions and widget identity -/

/-- Decimal digit character (Python `str` of a digit). -/
def digitChar (d : Nat) : Char :=
  if d = 0 then '0' else if d = 1 then '1' else if d = 2 then '2'
  else if d = 3 then '3' else if d = 4 then '4' else if d = 5 then '5'
  else if d = 6 then '6' else if d = 7 then '7' else if d = 8 then '8'
  else '9'

/-- Value of a decimal digit character. -/
def digitVal (c : Char) : Nat :=
  if c = '0' then 0 else if c = '1' then 1 else if c = '2' then 2
  else if c = '3' then 3 else if c = '4' then 4 else if c = '5' then 5
  else if c = '6' then 6 else if c = '7' then 7 else if c = '8' then 8
  else 9

/-- Decimal rendering of a natural number (Python `f"...{n}"` for `int`). -/
def natRepr (n : Nat) : List Char :=
  if n < 10 then [digitChar n] else natRepr (n / 10) ++ [digitChar (n % 10)]
termination_by n
decreasing_by omega

/-- Reading decimal digits back, generalized over an accumulator. -/
def ofDecimalFrom (acc : Nat) (cs : List Char) : Nat :=
  cs.foldl (fun a c => a * 10 + digitVal c) acc

/-- Python `f"...{n}"`: the rendered decimal string. -/
def natToStr (n : Nat) : String := String.mk (natRepr n)

/-- Session fields of the cipher page relevant to the Clear All button. -/
structure CipherPageState where
  output_content : Option Bytes
  output_filename : Option String
  operation_status : Option Status
deriving DecidableEq, Repr

/-- Session fields of the archive page relevant to the Clear All button,
including the widget-identity generation counter `zip_clear_trigger`. -/
structure ZipPageState where
  output_zip_content : Option Bytes
  output_zip_filename : Option String
  zip_operation_status : Option Status
  zip_clear_trigger : Nat
deriving DecidableEq, Repr

/-- The cipher page's Clear All button: reset the three result fields and
rerun.  No widget key is touched (the page's widgets use the fixed keys
`pwd1`/`pwd2` or no key at all). -/
def cipher_clear (_ : CipherPageState) : CipherPageState :=
  { output_content := none, output_filename := none, operation_status := none }

/-- The archive page's Clear All button: reset the three result fields and
increment `zip_clear_trigger` so that every input-widget key changes. -/
def zip_clear (s : ZipPageState) : ZipPageState :=
  { output_zip_content := none, output_zip_filename := none,
    zip_operation_status := none,
    zip_clear_trigger := s.zip_clear_trigger + 1 }

/-- Widget identities on the cipher page, in order: file uploader (no key),
password field (`pwd1`), confirmation field (`pwd2`), output-filename field
(no key).  None of them depends on the session state. -/
def cipher_widget_keys (_ : CipherPageState) : List (Option String) :=
  [none, some "pwd1", some "pwd2", none]

/-- Widget identities on the archive page, in order: file uploader, password
field, confirmation field, output-filename field; each key is an f-string
embedding `zip_clear_trigger`. -/
def zip_widget_keys (s : ZipPageState) : List String :=
  ["zip_uploader_" ++ natToStr s.zip_clear_trigger,
   "zip_pwd1_" ++ natToStr s.zip_clear_trigger,
   "zip_pwd2_" ++ natToStr s.zip_clear_trigger,
   "zip_output_name_" ++ natToStr s.zip_clear_trigger]

/- ### Helper lemmas -/

lemma cipher_finally_session (f : Bool) (r : CipherRun) :
    (cipher_finally f r).session = r.session := by
  unfold cipher_finally
  split
  · split <;> rfl
  · rfl

lemma zip_finally_session (f : Bool) (r : ZipRun) :
    (zip_finally f r).session = r.session := by
  unfold zip_finally
  split
  · split <;> rfl
  · rfl

lemma cipher_run_eq_finally (op : Operation) (name : String) (bytes : Bytes)
    (p pc o : String) (env : Env)
    (hv : cipher_validate op p pc o = none) :
    cipher_run op name bytes p pc o env
      = cipher_finally env.rmtreeFails (cipher_try op name bytes p o env) := by
  unfold cipher_run
  rw [hv]

lemma zip_run_eq_finally (upname : String) (bytes : Bytes)
    (p pc o : String) (env : Env)
    (hv : zip_validate p pc o = none) :
    zip_run upname bytes p pc o env
      = zip_finally env.rmtreeFails
          (zip_try upname bytes (actual_output_filename o)
            (!(strEndsWith (strToLower o) ".zip")) p env) := by
  unfold zip_run
  rw [hv]

lemma cipher_try_session (op : Operation) (name : String) (bytes : Bytes)
    (p o : String) (env : Env) (hr : env.raiseInTry = none) :
    (cipher_try op name bytes p o env).session =
      if (run_openssl_result env.proc).success && env.outputFileAfter.isSome then
        { output_content := env.outputFileAfter, output_filename := some o,
          operation_status := some Status.success }
      else
        { output_content := none, output_filename := none,
          operation_status := some Status.fail } := by
  unfold cipher_try
  rw [hr]
  dsimp only
  split <;> rfl

lemma zip_try_session (upname : String) (bytes : Bytes) (actual : String)
    (warned : Bool) (p : String) (env : Env) (hr : env.raiseInTry = none) :
    (zip_try upname bytes actual warned p env).session =
      if (run_zip_result env.proc).success && env.outputFileAfter.isSome then
        { output_zip_content := env.outputFileAfter, output_zip_filename := some actual,
          zip_operation_status := some Status.success }
      else
        { output_zip_content := none, output_zip_filename := none,
          zip_operation_status := some Status.fail } := by
  unfold zip_try
  rw [hr]
  dsimp only
  split <;> rfl

lemma cipher_try_tempDir (op : Operation) (name : String) (bytes : Bytes)
    (p o : String) (env : Env) :
    (cipher_try op name bytes p o env).tempDirExists = true := by
  unfold cipher_try
  dsimp only
  split
  · rfl
  · split <;> rfl

lemma zip_try_tempDir (upname : String) (bytes : Bytes) (actual : String)
    (warned : Bool) (p : String) (env : Env) :
    (zip_try upname bytes actual warned p env).tempDirExists = true := by
  unfold zip_try
  dsimp only
  split
  · rfl
  · split <;> rfl

lemma cipher_finally_tempDir (f : Bool) (r : CipherRun) :
    (cipher_finally f r).tempDirExists = (r.tempDirExists && f) := by
  unfold cipher_finally
  split
  · split
    · simp_all
    · simp_all
  · simp_all

lemma zip_finally_tempDir (f : Bool) (r : ZipRun) :
    (zip_finally f r).tempDirExists = (r.tempDirExists && f) := by
  unfold zip_finally
  split
  · split
    · simp_all
    · simp_all
  · simp_all

lemma cipher_finally_warning (f : Bool) (r : CipherRun)
    (ht : r.tempDirExists = true) (hf : f = true) :
    ∃ m, Event.cleanupWarning m ∈ (cipher_finally f r).events := by
  unfold cipher_finally
  rw [ht, hf]
  simp

lemma zip_finally_warning (f : Bool) (r : ZipRun)
    (ht : r.tempDirExists = true) (hf : f = true) :
    ∃ m, Event.cleanupWarning m ∈ (zip_finally f r).events := by
  unfold zip_finally
  rw [ht, hf]
  simp

lemma cipher_finally_removed (f : Bool) (r : CipherRun)
    (ht : r.tempDirExists = true) (hf : f = false) :
    Event.removedTempDir ∈ (cipher_finally f r).events := by
  unfold cipher_finally
  rw [ht, hf]
  simp

lemma zip_finally_removed (f : Bool) (r : ZipRun)
    (ht : r.tempDirExists = true) (hf : f = false) :
    Event.removedTempDir ∈ (zip_finally f r).events := by
  unfold zip_finally
  rw [ht, hf]
  simp

lemma cipher_finally_events_sub (f : Bool) (r : CipherRun) (e : Event) (he : e ∈ r.events) :
    e ∈ (cipher_finally f r).events := by
  unfold cipher_finally
  split
  · split <;> simp [he]
  · exact he

lemma zip_finally_events_sub (f : Bool) (r : ZipRun) (e : Event) (he : e ∈ r.events) :
    e ∈ (zip_finally f r).events := by
  unfold zip_finally
  split
  · split <;> simp [he]
  · exact he

lemma cipher_validate_some (op : Operation) (p pc o : String)
    (h : p = "" ∨ (op = Operation.encrypt ∧ p ≠ pc) ∨ o = "") :
    ∃ m, cipher_validate op p pc o = some m := by
  unfold cipher_validate
  split
  · exact ⟨_, rfl⟩
  · split
    · exact ⟨_, rfl⟩
    · split
      · exact ⟨_, rfl⟩
      · rename_i h1 h2 h3
        rcases h with h | h | h
        · exact absurd h h1
        · exact absurd h h2
        · exact absurd h h3

lemma zip_validate_some (p pc o : String)
    (h : p = "" ∨ p ≠ pc ∨ o = "") :
    ∃ m, zip_validate p pc o = some m := by
  unfold zip_validate
  split
  · exact ⟨_, rfl⟩
  · split
    · exact ⟨_, rfl⟩
    · split
      · exact ⟨_, rfl⟩
      · rename_i h1 h2 h3
        rcases h with h | h | h
        · exact absurd h h1
        · exact absurd h h2
        · exact absurd h h3

lemma cipher_run_validation_events (op : Operation) (name : String) (bytes : Bytes)
    (p pc o : String) (env : Env) (m : String)
    (hv : cipher_validate op p pc o = some m) :
    (cipher_run op name bytes p pc o env).events = [Event.validationError m] := by
  unfold cipher_run
  rw [hv]

lemma zip_run_validation_events (upname : String) (bytes : Bytes)
    (p pc o : String) (env : Env) (m : String)
    (hv : zip_validate p pc o = some m) :
    (zip_run upname bytes p pc o env).events = [Event.validationError m] := by
  unfold zip_run
  rw [hv]

lemma digitVal_digitChar (d : Nat) (h : d < 10) :
    digitVal (digitChar d) = d := by
  interval_cases d <;> rfl

lemma ofDecimalFrom_natRepr (n : Nat) :
    ∀ acc : Nat, ofDecimalFrom acc (natRepr n) = acc * 10 ^ (natRepr n).length + n := by
  induction n using Nat.strong_induction_on with
  | _ n ih =>
    intro acc
    by_cases h : n < 10
    · rw [natRepr]
      simp [h, ofDecimalFrom, digitVal_digitChar n h]
    · rw [natRepr]
      simp only [h, if_false]
      have hdiv : n / 10 < n := by omega
      unfold ofDecimalFrom at ih ⊢
      rw [List.foldl_append]
      rw [ih (n / 10) hdiv acc]
      have hmod : digitVal (digitChar (n % 10)) = n % 10 :=
        digitVal_digitChar _ (by omega)
      simp only [List.foldl_cons, List.foldl_nil, hmod, List.length_append,
        List.length_cons, List.length_nil]
      rw [pow_succ]
      have : 10 * (n / 10) + n % 10 = n := Nat.div_add_mod n 10
      ring_nf
      omega

lemma natRepr_injective (a b : Nat) (h : natRepr a = natRepr b) : a = b := by
  have ha := ofDecimalFrom_natRepr a 0
  have hb := ofDecimalFrom_natRepr b 0
  rw [h] at ha
  simp only [Nat.zero_mul, Nat.zero_add] at ha hb
  omega

lemma natToStr_succ_ne (n : Nat) : natToStr (n + 1) ≠ natToStr n := by
  intro h
  have h2 : natRepr (n + 1) = natRepr n := congrArg String.data h
  have := natRepr_injective _ _ h2
  omega

lemma keyByte_lt (p : String) : keyByte p < 256 := by
  unfold keyByte
  omega

lemma cipher_tool_roundtrip (p : String) (bytes : Bytes)
    (hb : ∀ b ∈ bytes, b < 256) :
    cipher_tool Operation.decrypt p (cipher_tool Operation.encrypt p bytes) = bytes := by
  unfold cipher_tool
  rw [List.map_map]
  have hk := keyByte_lt p
  induction bytes with
  | nil => rfl
  | cons x xs ihx =>
    have hx : x < 256 := hb x (by simp)
    simp only [List.map_cons, Function.comp_apply, List.cons.injEq]
    constructor
    · omega
    · exact ihx (fun b hbm => hb b (by simp [hbm]))

lemma mkdtemp_mem_cipher_try (op : Operation) (name : String) (bytes : Bytes)
    (p o : String) (env : Env) :
    Event.mkdtemp ∈ (cipher_try op name bytes p o env).events := by
  unfold cipher_try
  dsimp only
  split
  · simp
  · split <;> simp

lemma mkdtemp_mem_zip_try (upname : String) (bytes : Bytes) (actual : String)
    (warned : Bool) (p : String) (env : Env) :
    Event.mkdtemp ∈ (zip_try upname bytes actual warned p env).events := by
  unfold zip_try
  dsimp only
  split
  · simp
  · split <;> simp

lemma spawn_mem_cipher_try (op : Operation) (name : String) (bytes : Bytes)
    (p o : String) (env : Env) (hr : env.raiseInTry = none) :
    Event.spawn
      (openssl_full_command (cipher_args op (path_join "TMP" name) (path_join "TMP" o)) p)
      OPENSSL_TIMEOUT ∈ (cipher_try op name bytes p o env).events := by
  unfold cipher_try
  rw [hr]
  dsimp only
  split <;> simp

lemma spawn_mem_zip_try (upname : String) (bytes : Bytes) (actual : String)
    (warned : Bool) (p : String) (env : Env) (hr : env.raiseInTry = none) :
    Event.spawn
      (zip_full_command (zip_args p (path_join "TMP" actual) (path_join "TMP" upname)))
      ZIP_TIMEOUT ∈ (zip_try upname bytes actual warned p env).events := by
  unfold zip_try
  rw [hr]
  dsimp only
  split <;> simp

lemma cipher_finally_mem (f : Bool) (r : CipherRun) (e : Event)
    (h : e ∈ (cipher_finally f r).events) :
    e ∈ r.events ∨ (∃ m, e = Event.cleanupWarning m) ∨ e = Event.removedTempDir := by
  unfold cipher_finally at h
  split at h
  · split at h
    · simp only [List.mem_append, List.mem_singleton] at h
      rcases h with h | h
      · exact Or.inl h
      · exact Or.inr (Or.inl ⟨_, h⟩)
    · simp only [List.mem_append, List.mem_singleton] at h
      rcases h with h | h
      · exact Or.inl h
      · exact Or.inr (Or.inr h)
  · exact Or.inl h

lemma zip_finally_mem (f : Bool) (r : ZipRun) (e : Event)
    (h : e ∈ (zip_finally f r).events) :
    e ∈ r.events ∨ (∃ m, e = Event.cleanupWarning m) ∨ e = Event.removedTempDir := by
  unfold zip_finally at h
  split at h
  · split at h
    · simp only [List.mem_append, List.mem_singleton] at h
      rcases h with h | h
      · exact Or.inl h
      · exact Or.inr (Or.inl ⟨_, h⟩)
    · simp only [List.mem_append, List.mem_singleton] at h
      rcases h with h | h
      · exact Or.inl h
      · exact Or.inr (Or.inr h)
  · exact Or.inl h

lemma spawn_timeout_cipher_try (op : Operation) (name : String) (bytes : Bytes)
    (p o : String) (env : Env) (c : List String) (t : Nat)
    (h : Event.spawn c t ∈ (cipher_try op name bytes p o env).events) :
    t = OPENSSL_TIMEOUT := by
  unfold cipher_try at h
  dsimp only at h
  split at h
  · simp at h
  · split at h
    · simp at h
      exact h.2
    · split at h <;> simp at h <;> exact h.2

lemma spawn_timeout_zip_try (upname : String) (bytes : Bytes) (actual : String)
    (warned : Bool) (p : String) (env : Env) (c : List String) (t : Nat)
    (h : Event.spawn c t ∈ (zip_try upname bytes actual warned p env).events) :
    t = ZIP_TIMEOUT := by
  unfold zip_try at h
  dsimp only at h
  split at h
  · rcases warned <;> simp at h
  · split at h
    · rcases warned <;> simp at h <;> exact h.2
    · split at h <;> rcases warned <;> simp at h <;> exact h.2

lemma suffix_warning_zip_try_mem (upname : String) (bytes : Bytes) (actual : String)
    (p : String) (env : Env) :
    Event.suffixWarning actual ∈ (zip_try upname bytes actual true p env).events := by
  unfold zip_try
  dsimp only
  split
  · simp
  · split <;> simp

lemma suffix_warning_zip_try_not_mem (upname : String) (bytes : Bytes) (actual : String)
    (p : String) (env : Env) (a : String)
    (h : Event.suffixWarning a ∈ (zip_try upname bytes actual false p env).events) :
    False := by
  unfold zip_try at h
  dsimp only at h
  split at h
  · simp_all
  · split at h
    · simp_all
    · split at h <;> simp_all

lemma cipher_run_validation (op : Operation) (name : String) (bytes : Bytes)
    (p pc o : String) (env : Env) (m : String)
    (hv : cipher_validate op p pc o = some m) :
    cipher_run op name bytes p pc o env =
      ⟨⟨none, none, none⟩, [Event.validationError m], false⟩ := by
  unfold cipher_run
  rw [hv]

lemma zip_run_validation (upname : String) (bytes : Bytes)
    (p pc o : String) (env : Env) (m : String)
    (hv : zip_validate p pc o = some m) :
    zip_run upname bytes p pc o env =
      ⟨⟨none, none, none⟩, [Event.validationError m], false⟩ := by
  unfold zip_run
  rw [hv]

lemma cipher_validate_none (op : Operation) (p o : String)
    (hp : ¬ p = "") (ho : ¬ o = "") : cipher_validate op p p o = none := by
  unfold cipher_validate
  rw [if_neg hp, if_neg (by simp), if_neg ho]

lemma zip_validate_none (p o : String)
    (hp : ¬ p = "") (ho : ¬ o = "") : zip_validate p p o = none := by
  unfold zip_validate
  rw [if_neg hp, if_neg (by simp), if_neg ho]

/- ### Claims -/

/-- Claim C5: the argument vector passed to the external process is exactly as
specified — cipher tool: `enc -<cipher> -pbkdf2`, then `-d` for decrypt (the
print flag `-p` for encrypt), then `-in <input> -out <output>`, with
`-pass pass:<password>` appended by the wrapper; archive tool:
`-j -e -P <password> <output> <input>`.  The last two conjuncts show the run
blocks spawn exactly these vectors. -/
theorem claim_C5 :
    (∀ (op : Operation) (inp out pwd : String),
      openssl_full_command (cipher_args op inp out) pwd =
        ["openssl", "enc", "-aes-256-cbc", "-pbkdf2"]
          ++ (match op with
              | Operation.decrypt => ["-d"]
              | Operation.encrypt => ["-p"])
          ++ ["-in", inp, "-out", out, "-pass", "pass:" ++ pwd])
    ∧ (∀ pwd out inp : String,
        zip_full_command (zip_args pwd out inp) =
          ["zip", "-j", "-e", "-P", pwd, out, inp])
    ∧ (∀ (op : Operation) (name : String) (bytes : Bytes) (p pc o : String) (env : Env),
        cipher_validate op p pc o = none → env.raiseInTry = none →
        Event.spawn
          (openssl_full_command
            (cipher_args op (path_join "TMP" name) (path_join "TMP" o)) p)
          OPENSSL_TIMEOUT ∈ (cipher_run op name bytes p pc o env).events)
    ∧ (∀ (upname : String) (bytes : Bytes) (p pc o : String) (env : Env),
        zip_validate p pc o = none → env.raiseInTry = none →
        Event.spawn
          (zip_full_command
            (zip_args p (path_join "TMP" (actual_output_filename o)) (path_join "TMP" upname)))
          ZIP_TIMEOUT ∈ (zip_run upname bytes p pc o env).events) := by
  refine ⟨?_, ?_, ?_, ?_⟩
  · intro op inp out pwd
    cases op <;> rfl
  · intro pwd out inp
    rfl
  · intro op name bytes p pc o env hv hr
    rw [cipher_run_eq_finally op name bytes p pc o env hv]
    exact cipher_finally_events_sub _ _ _ (spawn_mem_cipher_try op name bytes p o env hr)
  · intro upname bytes p pc o env hv hr
    rw [zip_run_eq_finally upname bytes p pc o env hv]
    exact zip_finally_events_sub _ _ _ (spawn_mem_zip_try upname bytes _ _ p env hr)

/-- Witness for C5 at a concrete encrypt request. -/
theorem claim_C5_witness :
    openssl_full_command (cipher_args Operation.encrypt "TMP/notes.txt" "TMP/notes.enc")
        "secret123"
      = ["openssl", "enc", "-aes-256-cbc", "-pbkdf2", "-p", "-in", "TMP/notes.txt",
         "-out", "TMP/notes.enc", "-pass", "pass:secret123"]
    ∧ Event.spawn
        (openssl_full_command
          (cipher_args Operation.encrypt (path_join "TMP" "notes.txt")
            (path_join "TMP" "notes.enc")) "secret123")
        OPENSSL_TIMEOUT
        ∈ (cipher_run Operation.encrypt "notes.txt" [104, 105] "secret123" "secret123"
            "notes.enc"
            ⟨ProcOutcome.completed 0 "" "", some [1, 2], none, false⟩).events := by
  constructor
  · have h := claim_C5.1 Operation.encrypt "TMP/notes.txt" "TMP/notes.enc" "secret123"
    rw [h]
    rfl
  · exact claim_C5.2.2.1 Operation.encrypt "notes.txt" [104, 105] "secret123" "secret123"
      "notes.enc" ⟨ProcOutcome.completed 0 "" "", some [1, 2], none, false⟩ (by decide) rfl

/-- Claim C6 (spec-modelled external cipher): encrypting with password `p` and
then decrypting the produced output with the same password, through the
page's run block, returns the original input bytes. -/
theorem claim_C6 (name1 name2 : String) (bytes : Bytes) (p o1 o2 : String)
    (hb : ∀ b ∈ bytes, b < 256) (hp : ¬ p = "") (ho1 : ¬ o1 = "") (ho2 : ¬ o2 = "") :
    (cipher_run Operation.encrypt name1 bytes p p o1
        (cipher_env Operation.encrypt p bytes)).session.output_content
      = some (cipher_tool Operation.encrypt p bytes)
    ∧ (cipher_run Operation.decrypt name2 (cipher_tool Operation.encrypt p bytes) p p o2
        (cipher_env Operation.decrypt p (cipher_tool Operation.encrypt p bytes))).session.output_content
      = some bytes := by
  constructor
  · rw [cipher_run_eq_finally _ _ _ _ _ _ _ (cipher_validate_none _ p o1 hp ho1),
        cipher_finally_session, cipher_try_session _ _ _ _ _ _ rfl]
    simp [run_openssl_result, cipher_env]
  · rw [cipher_run_eq_finally _ _ _ _ _ _ _ (cipher_validate_none _ p o2 hp ho2),
        cipher_finally_session, cipher_try_session _ _ _ _ _ _ rfl]
    simp [run_openssl_result, cipher_env]
    exact cipher_tool_roundtrip p bytes hb

/-- Witness for C6 at concrete bytes and password. -/
theorem claim_C6_witness :
    (cipher_run Operation.decrypt "notes.enc" (cipher_tool Operation.encrypt "pw" [104, 101])
        "pw" "pw" "notes"
        (cipher_env Operation.decrypt "pw"
          (cipher_tool Operation.encrypt "pw" [104, 101]))).session.output_content
      = some [104, 101] := by
  exact (claim_C6 "notes.txt" "notes.enc" [104, 101] "pw" "notes.enc" "notes"
    (by decide) (by decide) (by decide) (by decide)).2

/-- Claim C7: a non-zero archive-tool exit whose stderr contains the marker
"nothing to do" (case-insensitively, via lowering) is reported with the
clearer "nothing to zip" message carrying the stderr text, distinct from the
generic failure message (different constructor, and different rendered
string). -/
theorem claim_C7 (rc : Int) (stderr : String) (_hrc : ¬ rc = 0)
    (h : strContains (strToLower stderr) "nothing to do" = true) :
    zip_failure_message rc stderr = ZipFailureMsg.nothingToZip rc (strip stderr)
    ∧ (∀ (rc2 : Int) (e2 : String),
        ZipFailureMsg.nothingToZip rc (strip stderr) ≠ ZipFailureMsg.generic rc2 e2)
    ∧ (∀ e : String,
        render_zip_failure (ZipFailureMsg.nothingToZip rc e)
          ≠ render_zip_failure (ZipFailureMsg.generic rc e)) := by
  refine ⟨?_, ?_, ?_⟩
  · unfold zip_failure_message
    simp [h]
  · intro rc2 e2 hcon
    exact ZipFailureMsg.noConfusion hcon
  · intro e heq
    unfold render_zip_failure at heq
    have hd := congrArg String.data heq
    simp only [String.data_append, List.append_assoc] at hd
    have h1 := List.append_cancel_left hd
    have h2 := List.append_cancel_left h1
    have h3 := List.append_cancel_right h2
    exact absurd h3 (by decide)

/-- Witness for C7 at a concrete non-zero exit with a mixed-case marker. -/
theorem claim_C7_witness :
    zip_failure_message 12 " zip error: Nothing to do! (TMP/out.zip) "
      = ZipFailureMsg.nothingToZip 12 (strip " zip error: Nothing to do! (TMP/out.zip) ") := by
  exact (claim_C7 12 " zip error: Nothing to do! (TMP/out.zip) " (by decide) (by decide)).1

/-- Claim C1: for both tools, the result's output bytes are populated iff the
wrapper reported success (equivalently, the process exited with code zero)
and the expected output file existed afterwards; when populated they are the
on-disk bytes; when either condition fails the result is marked failed with
no output bytes. -/
theorem claim_C1 :
    (∀ (op : Operation) (name : String) (bytes : Bytes) (p pc o : String) (env : Env),
      cipher_validate op p pc o = none → env.raiseInTry = none →
      (∀ b : Bytes,
        ((cipher_run op name bytes p pc o env).session.output_content = some b ↔
          (run_openssl_result env.proc).success = true ∧ env.outputFileAfter = some b))
      ∧ ((run_openssl_result env.proc).success = true ↔
          ∃ out err, env.proc = ProcOutcome.completed 0 out err)
      ∧ (((run_openssl_result env.proc).success = false ∨ env.outputFileAfter = none) →
          (cipher_run op name bytes p pc o env).session.output_content = none
          ∧ (cipher_run op name bytes p pc o env).session.operation_status
              = some Status.fail))
    ∧ (∀ (upname : String) (bytes : Bytes) (p pc o : String) (env : Env),
      zip_validate p pc o = none → env.raiseInTry = none →
      (∀ b : Bytes,
        ((zip_run upname bytes p pc o env).session.output_zip_content = some b ↔
          (run_zip_result env.proc).success = true ∧ env.outputFileAfter = some b))
      ∧ ((run_zip_result env.proc).success = true ↔
          ∃ out err, env.proc = ProcOutcome.completed 0 out err)
      ∧ (((run_zip_result env.proc).success = false ∨ env.outputFileAfter = none) →
          (zip_run upname bytes p pc o env).session.output_zip_content = none
          ∧ (zip_run upname bytes p pc o env).session.zip_operation_status
              = some Status.fail)) := by
  constructor
  · intro op name bytes p pc o env hv hr
    have hs : (cipher_run op name bytes p pc o env).session =
        if (run_openssl_result env.proc).success && env.outputFileAfter.isSome then
          { output_content := env.outputFileAfter, output_filename := some o,
            operation_status := some Status.success }
        else
          { output_content := none, output_filename := none,
            operation_status := some Status.fail } := by
      rw [cipher_run_eq_finally _ _ _ _ _ _ _ hv, cipher_finally_session,
        cipher_try_session _ _ _ _ _ _ hr]
    refine ⟨?_, ?_, ?_⟩
    · intro b
      rw [hs]
      cases hcase : ((run_openssl_result env.proc).success && env.outputFileAfter.isSome) with
      | true =>
        rw [Bool.and_eq_true] at hcase
        simp [hcase.1]
      | false =>
        rw [if_neg (by exact Bool.false_ne_true)]
        rw [Bool.and_eq_false_iff] at hcase
        constructor
        · intro hfalse
          exact absurd hfalse (by simp)
        · rintro ⟨hsucc, hafter⟩
          rcases hcase with hc | hc
          · rw [hsucc] at hc
            exact absurd hc (by simp)
          · rw [hafter] at hc
            exact absurd hc (by simp)
    · cases env.proc with
      | completed rc out err => simp [run_openssl_result, beq_iff_eq]
      | timedOut => simp [run_openssl_result]
      | notFound => simp [run_openssl_result]
      | raised msg => simp [run_openssl_result]
    · intro hfail
      have hcond : ((run_openssl_result env.proc).success && env.outputFileAfter.isSome)
          = false := by
        rcases hfail with hf | hf
        · simp [hf]
        · simp [hf]
      rw [hs, if_neg (by simp [hcond])]
      exact ⟨rfl, rfl⟩
  · intro upname bytes p pc o env hv hr
    have hs : (zip_run upname bytes p pc o env).session =
        if (run_zip_result env.proc).success && env.outputFileAfter.isSome then
          { output_zip_content := env.outputFileAfter,
            output_zip_filename := some (actual_output_filename o),
            zip_operation_status := some Status.success }
        else
          { output_zip_content := none, output_zip_filename := none,
            zip_operation_status := some Status.fail } := by
      rw [zip_run_eq_finally _ _ _ _ _ _ hv, zip_finally_session,
        zip_try_session _ _ _ _ _ _ hr]
    refine ⟨?_, ?_, ?_⟩
    · intro b
      rw [hs]
      cases hcase : ((run_zip_result env.proc).success && env.outputFileAfter.isSome) with
      | true =>
        rw [Bool.and_eq_true] at hcase
        simp [hcase.1]
      | false =>
        rw [if_neg (by exact Bool.false_ne_true)]
        rw [Bool.and_eq_false_iff] at hcase
        constructor
        · intro hfalse
          exact absurd hfalse (by simp)
        · rintro ⟨hsucc, hafter⟩
          rcases hcase with hc | hc
          · rw [hsucc] at hc
            exact absurd hc (by simp)
          · rw [hafter] at hc
            exact absurd hc (by simp)
    · cases env.proc with
      | completed rc out err => simp [run_zip_result, beq_iff_eq]
      | timedOut => simp [run_zip_result]
      | notFound => simp [run_zip_result]
      | raised msg => simp [run_zip_result]
    · intro hfail
      have hcond : ((run_zip_result env.proc).success && env.outputFileAfter.isSome)
          = false := by
        rcases hfail with hf | hf
        · simp [hf]
        · simp [hf]
      rw [hs, if_neg (by simp [hcond])]
      exact ⟨rfl, rfl⟩

/-- Witness for C1: a zero exit with an existing output file populates the
stored bytes with the on-disk content. -/
theorem claim_C1_witness :
    (cipher_run Operation.encrypt "a.txt" [1] "pw" "pw" "a.enc"
        ⟨ProcOutcome.completed 0 "" "", some [9], none, false⟩).session.output_content
      = some [9] := by
  have h := claim_C1.1 Operation.encrypt "a.txt" [1] "pw" "pw" "a.enc"
    ⟨ProcOutcome.completed 0 "" "", some [9], none, false⟩ (by decide) rfl
  exact (h.1 [9]).2 ⟨rfl, rfl⟩

/-- Claim C2: an empty password, a mismatched confirmation (encrypt/archive),
or an empty output filename aborts the request with a validation error: the
trace is exactly that error, with no process spawned and no workspace
created. -/
theorem claim_C2 :
    (∀ (op : Operation) (name : String) (bytes : Bytes) (p pc o : String) (env : Env),
      (p = "" ∨ (op = Operation.encrypt ∧ p ≠ pc) ∨ o = "") →
      ∃ m, (cipher_run op name bytes p pc o env).events = [Event.validationError m]
        ∧ Event.mkdtemp ∉ (cipher_run op name bytes p pc o env).events
        ∧ (∀ c t, Event.spawn c t ∉ (cipher_run op name bytes p pc o env).events))
    ∧ (∀ (upname : String) (bytes : Bytes) (p pc o : String) (env : Env),
      (p = "" ∨ p ≠ pc ∨ o = "") →
      ∃ m, (zip_run upname bytes p pc o env).events = [Event.validationError m]
        ∧ Event.mkdtemp ∉ (zip_run upname bytes p pc o env).events
        ∧ (∀ c t, Event.spawn c t ∉ (zip_run upname bytes p pc o env).events)) := by
  constructor
  · intro op name bytes p pc o env h
    obtain ⟨m, hm⟩ := cipher_validate_some op p pc o h
    have he := cipher_run_validation_events op name bytes p pc o env m hm
    refine ⟨m, he, ?_, ?_⟩
    · rw [he]
      simp
    · intro c t
      rw [he]
      simp
  · intro upname bytes p pc o env h
    obtain ⟨m, hm⟩ := zip_validate_some p pc o h
    have he := zip_run_validation_events upname bytes p pc o env m hm
    refine ⟨m, he, ?_, ?_⟩
    · rw [he]
      simp
    · intro c t
      rw [he]
      simp

/-- Witness for C2 at an empty password: no workspace is created. -/
theorem claim_C2_witness :
    Event.mkdtemp ∉ (cipher_run Operation.encrypt "a.txt" [1] "" "" "a.enc"
        ⟨ProcOutcome.completed 0 "" "", none, none, false⟩).events := by
  obtain ⟨m, hm, hmk, hsp⟩ := claim_C2.1 Operation.encrypt "a.txt" [1] "" "" "a.enc"
    ⟨ProcOutcome.completed 0 "" "", none, none, false⟩ (Or.inl rfl)
  exact hmk

/-- Claim C3: on every exit path the workspace directory is gone afterwards
when removal succeeds; if removal fails a non-fatal cleanup warning is
recorded; and the cleanup never alters the operation's result (the session
after the `finally` equals the session before it). -/
theorem claim_C3 :
    (∀ (op : Operation) (name : String) (bytes : Bytes) (p pc o : String) (env : Env),
      (env.rmtreeFails = false →
        (cipher_run op name bytes p pc o env).tempDirExists = false)
      ∧ (env.rmtreeFails = true →
          Event.mkdtemp ∈ (cipher_run op name bytes p pc o env).events →
          ∃ m, Event.cleanupWarning m ∈ (cipher_run op name bytes p pc o env).events)
      ∧ (cipher_validate op p pc o = none →
          (cipher_run op name bytes p pc o env).session
            = (cipher_try op name bytes p o env).session))
    ∧ (∀ (upname : String) (bytes : Bytes) (p pc o : String) (env : Env),
      (env.rmtreeFails = false →
        (zip_run upname bytes p pc o env).tempDirExists = false)
      ∧ (env.rmtreeFails = true →
          Event.mkdtemp ∈ (zip_run upname bytes p pc o env).events →
          ∃ m, Event.cleanupWarning m ∈ (zip_run upname bytes p pc o env).events)
      ∧ (zip_validate p pc o = none →
          (zip_run upname bytes p pc o env).session
            = (zip_try upname bytes (actual_output_filename o)
                (!(strEndsWith (strToLower o) ".zip")) p env).session)) := by
  constructor
  · intro op name bytes p pc o env
    cases hv : cipher_validate op p pc o with
    | some m =>
      have hrun := cipher_run_validation op name bytes p pc o env m hv
      refine ⟨fun _ => ?_, fun _ hmk => ?_, fun hnone => ?_⟩
      · rw [hrun]
      · rw [hrun] at hmk
        simp at hmk
      · exact Option.noConfusion hnone
    | none =>
      refine ⟨fun hf => ?_, fun hf _ => ?_, fun _ => ?_⟩
      · rw [cipher_run_eq_finally _ _ _ _ _ _ _ hv, cipher_finally_tempDir,
          cipher_try_tempDir, hf]
        rfl
      · rw [cipher_run_eq_finally _ _ _ _ _ _ _ hv]
        exact cipher_finally_warning _ _ (cipher_try_tempDir op name bytes p o env) hf
      · rw [cipher_run_eq_finally _ _ _ _ _ _ _ hv, cipher_finally_session]
  · intro upname bytes p pc o env
    cases hv : zip_validate p pc o with
    | some m =>
      have hrun := zip_run_validation upname bytes p pc o env m hv
      refine ⟨fun _ => ?_, fun _ hmk => ?_, fun hnone => ?_⟩
      · rw [hrun]
      · rw [hrun] at hmk
        simp at hmk
      · exact Option.noConfusion hnone
    | none =>
      refine ⟨fun hf => ?_, fun hf _ => ?_, fun _ => ?_⟩
      · rw [zip_run_eq_finally _ _ _ _ _ _ hv, zip_finally_tempDir,
          zip_try_tempDir, hf]
        rfl
      · rw [zip_run_eq_finally _ _ _ _ _ _ hv]
        exact zip_finally_warning _ _ (zip_try_tempDir upname bytes _ _ p env) hf
      · rw [zip_run_eq_finally _ _ _ _ _ _ hv, zip_finally_session]

/-- Witness for C3: a failing removal records a cleanup warning. -/
theorem claim_C3_witness :
    ∃ m, Event.cleanupWarning m ∈ (cipher_run Operation.encrypt "a.txt" [1] "pw" "pw" "a.enc"
        ⟨ProcOutcome.completed 0 "" "", some [9], none, true⟩).events := by
  refine (claim_C3.1 Operation.encrypt "a.txt" [1] "pw" "pw" "a.enc"
    ⟨ProcOutcome.completed 0 "" "", some [9], none, true⟩).2.1 rfl ?_
  rw [cipher_run_eq_finally _ _ _ _ _ _ _ (by decide)]
  exact cipher_finally_events_sub _ _ _ (mkdtemp_mem_cipher_try _ _ _ _ _ _)

/-- Claim C4: the external process runs under a bound of exactly 60 seconds
(cipher tool) or 120 seconds (archive tool); every spawn in a run carries
that bound; a timeout is classified as a failure result with a timeout
diagnostic, not an unhandled fault. -/
theorem claim_C4 :
    OPENSSL_TIMEOUT = 60 ∧ ZIP_TIMEOUT = 120
    ∧ (∀ (op : Operation) (name : String) (bytes : Bytes) (p pc o : String)
        (env : Env) (c : List String) (t : Nat),
        Event.spawn c t ∈ (cipher_run op name bytes p pc o env).events → t = 60)
    ∧ (∀ (upname : String) (bytes : Bytes) (p pc o : String)
        (env : Env) (c : List String) (t : Nat),
        Event.spawn c t ∈ (zip_run upname bytes p pc o env).events → t = 120)
    ∧ run_openssl_result ProcOutcome.timedOut
        = { success := false, stdout := "", stderr := "Timeout expired" }
    ∧ run_zip_result ProcOutcome.timedOut
        = { success := false, stdout := "", stderr := "Timeout expired" }
    ∧ (∀ (op : Operation) (name : String) (bytes : Bytes) (p pc o : String) (env : Env),
        env.proc = ProcOutcome.timedOut →
        cipher_validate op p pc o = none → env.raiseInTry = none →
        (cipher_run op name bytes p pc o env).session.output_content = none
        ∧ (cipher_run op name bytes p pc o env).session.operation_status
            = some Status.fail)
    ∧ (∀ (upname : String) (bytes : Bytes) (p pc o : String) (env : Env),
        env.proc = ProcOutcome.timedOut →
        zip_validate p pc o = none → env.raiseInTry = none →
        (zip_run upname bytes p pc o env).session.output_zip_content = none
        ∧ (zip_run upname bytes p pc o env).session.zip_operation_status
            = some Status.fail) := by
  refine ⟨rfl, rfl, ?_, ?_, rfl, rfl, ?_, ?_⟩
  · intro op name bytes p pc o env c t h
    cases hv : cipher_validate op p pc o with
    | some m =>
      rw [cipher_run_validation op name bytes p pc o env m hv] at h
      simp at h
    | none =>
      rw [cipher_run_eq_finally _ _ _ _ _ _ _ hv] at h
      rcases cipher_finally_mem _ _ _ h with h2 | ⟨m, h2⟩ | h2
      · exact spawn_timeout_cipher_try op name bytes p o env c t h2
      · exact Event.noConfusion h2
      · exact Event.noConfusion h2
  · intro upname bytes p pc o env c t h
    cases hv : zip_validate p pc o with
    | some m =>
      rw [zip_run_validation upname bytes p pc o env m hv] at h
      simp at h
    | none =>
      rw [zip_run_eq_finally _ _ _ _ _ _ hv] at h
      rcases zip_finally_mem _ _ _ h with h2 | ⟨m, h2⟩ | h2
      · exact spawn_timeout_zip_try upname bytes _ _ p env c t h2
      · exact Event.noConfusion h2
      · exact Event.noConfusion h2
  · intro op name bytes p pc o env hp hv hr
    rw [cipher_run_eq_finally _ _ _ _ _ _ _ hv, cipher_finally_session,
      cipher_try_session _ _ _ _ _ _ hr, hp]
    exact ⟨rfl, rfl⟩
  · intro upname bytes p pc o env hp hv hr
    rw [zip_run_eq_finally _ _ _ _ _ _ hv, zip_finally_session,
      zip_try_session _ _ _ _ _ _ hr, hp]
    exact ⟨rfl, rfl⟩

/-- Witness for C4: a timed-out cipher invocation yields a failed result. -/
theorem claim_C4_witness :
    (cipher_run Operation.encrypt "a.txt" [1] "pw" "pw" "a.enc"
        ⟨ProcOutcome.timedOut, none, none, false⟩).session.operation_status
      = some Status.fail := by
  exact (claim_C4.2.2.2.2.2.2.1 Operation.encrypt "a.txt" [1] "pw" "pw" "a.enc"
    ⟨ProcOutcome.timedOut, none, none, false⟩ rfl (by decide) rfl).2

/-- Claim C8 (amended): the empty-file notice appears exactly for zero-byte
files; the size notice appears exactly for sizes STRICTLY above the 5 MB
limit (the code tests `file_size > PREVIEW_SIZE_LIMIT`, so a file of exactly
5 MB is previewed normally — this is the amendment); text previews never
exceed 100 lines; non-text or non-decodable content yields a hex preview of
the first 256 read bytes; decodable text yields the first 100 lines with a
truncation flag. -/
theorem claim_C8 (content : Bytes) (b : Bool) :
    (get_file_preview content b = Preview.emptyFile ↔ content.length = 0)
    ∧ ((∃ n, get_file_preview content b = Preview.tooLarge n) ↔
        content.length > PREVIEW_SIZE_LIMIT)
    ∧ (∀ lines tr, get_file_preview content b = Preview.textPreview lines tr →
        lines.length ≤ PREVIEW_LINES_LIMIT)
    ∧ (0 < content.length → content.length ≤ PREVIEW_SIZE_LIMIT →
        (b = false ∨ utf8Decode (content.take PREVIEW_SIZE_LIMIT) = none) →
        get_file_preview content b
          = Preview.hexPreview ((content.take PREVIEW_SIZE_LIMIT).take 256))
    ∧ (∀ cs, 0 < content.length → content.length ≤ PREVIEW_SIZE_LIMIT → b = true →
        utf8Decode (content.take PREVIEW_SIZE_LIMIT) = some cs →
        get_file_preview content b
          = Preview.textPreview ((splitlines cs).take PREVIEW_LINES_LIMIT)
              (decide ((splitlines cs).length > PREVIEW_LINES_LIMIT))) := by
  by_cases h0 : content.length = 0
  · have hg : get_file_preview content b = Preview.emptyFile := by
      unfold get_file_preview
      rw [if_pos h0]
    refine ⟨?_, ?_, ?_, ?_, ?_⟩
    · simp [hg, h0]
    · constructor
      · rintro ⟨n, hn⟩
        rw [hg] at hn
        exact Preview.noConfusion hn
      · intro hgt
        rw [h0] at hgt
        exact absurd hgt (by decide)
    · intro lines tr hL
      rw [hg] at hL
      exact Preview.noConfusion hL
    · intro hpos
      exact absurd hpos (by omega)
    · intro cs hpos
      exact absurd hpos (by omega)
  · by_cases hL : content.length > PREVIEW_SIZE_LIMIT
    · have hg : get_file_preview content b = Preview.tooLarge content.length := by
        unfold get_file_preview
        rw [if_neg h0, if_pos hL]
      refine ⟨?_, ?_, ?_, ?_, ?_⟩
      · constructor
        · intro h
          rw [hg] at h
          exact Preview.noConfusion h
        · intro h
          exact absurd h h0
      · constructor
        · intro _
          exact hL
        · intro _
          exact ⟨content.length, hg⟩
      · intro lines tr hLt
        rw [hg] at hLt
        exact Preview.noConfusion hLt
      · intro _ hle _
        exact absurd hL (by omega)
      · intro cs _ hle _ _
        exact absurd hL (by omega)
    · cases b with
      | false =>
        have hg : get_file_preview content false
            = Preview.hexPreview ((content.take PREVIEW_SIZE_LIMIT).take 256) := by
          unfold get_file_preview
          rw [if_neg h0, if_neg hL]
          rfl
        refine ⟨?_, ?_, ?_, ?_, ?_⟩
        · constructor
          · intro h
            rw [hg] at h
            exact Preview.noConfusion h
          · intro h
            exact absurd h h0
        · constructor
          · rintro ⟨n, hn⟩
            rw [hg] at hn
            exact Preview.noConfusion hn
          · intro h
            exact absurd h hL
        · intro lines tr hLt
          rw [hg] at hLt
          exact Preview.noConfusion hLt
        · intro _ _ _
          exact hg
        · intro cs _ _ hb _
          exact Bool.noConfusion hb
      | true =>
        cases hdec : utf8Decode (content.take PREVIEW_SIZE_LIMIT) with
        | none =>
          have hg : get_file_preview content true
              = Preview.hexPreview ((content.take PREVIEW_SIZE_LIMIT).take 256) := by
            unfold get_file_preview
            rw [if_neg h0, if_neg hL]
            dsimp only
            rw [hdec]
            rfl
          refine ⟨?_, ?_, ?_, ?_, ?_⟩
          · constructor
            · intro h
              rw [hg] at h
              exact Preview.noConfusion h
            · intro h
              exact absurd h h0
          · constructor
            · rintro ⟨n, hn⟩
              rw [hg] at hn
              exact Preview.noConfusion hn
            · intro h
              exact absurd h hL
          · intro lines tr hLt
            rw [hg] at hLt
            exact Preview.noConfusion hLt
          · intro _ _ _
            exact hg
          · intro cs _ _ _ hdec2
            exact Option.noConfusion hdec2
        | some cs0 =>
          by_cases hT : (splitlines cs0).length > PREVIEW_LINES_LIMIT
          · have hg : get_file_preview content true
                = Preview.textPreview ((splitlines cs0).take PREVIEW_LINES_LIMIT) true := by
              unfold get_file_preview
              rw [if_neg h0, if_neg hL]
              dsimp only
              rw [hdec,
                show (if true = true then some cs0 else (none : Option (List Char)))
                  = some cs0 from rfl]
              dsimp only
              rw [if_pos hT]
            refine ⟨?_, ?_, ?_, ?_, ?_⟩
            · constructor
              · intro h
                rw [hg] at h
                exact Preview.noConfusion h
              · intro h
                exact absurd h h0
            · constructor
              · rintro ⟨n, hn⟩
                rw [hg] at hn
                exact Preview.noConfusion hn
              · intro h
                exact absurd h hL
            · intro lines tr hLt
              rw [hg] at hLt
              injection hLt with h1 h2
              rw [← h1]
              simp [List.length_take]
            · intro _ _ hor
              rcases hor with hb | hn
              · exact Bool.noConfusion hb
              · exact Option.noConfusion hn
            · intro cs _ _ _ hdec2
              injection hdec2 with hcs
              rw [← hcs, hg, decide_eq_true hT]
          · have hg : get_file_preview content true
                = Preview.textPreview (splitlines cs0) false := by
              unfold get_file_preview
              rw [if_neg h0, if_neg hL]
              dsimp only
              rw [hdec,
                show (if true = true then some cs0 else (none : Option (List Char)))
                  = some cs0 from rfl]
              dsimp only
              rw [if_neg hT]
            refine ⟨?_, ?_, ?_, ?_, ?_⟩
            · constructor
              · intro h
                rw [hg] at h
                exact Preview.noConfusion h
              · intro h
                exact absurd h h0
            · constructor
              · rintro ⟨n, hn⟩
                rw [hg] at hn
                exact Preview.noConfusion hn
              · intro h
                exact absurd h hL
            · intro lines tr hLt
              rw [hg] at hLt
              injection hLt with h1 h2
              rw [← h1]
              omega
            · intro _ _ hor
              rcases hor with hb | hn
              · exact Bool.noConfusion hb
              · exact Option.noConfusion hn
            · intro cs _ _ _ hdec2
              injection hdec2 with hcs
              rw [← hcs, hg, List.take_of_length_le (by omega),
                decide_eq_false hT]

/-- Counterexample for C8 as stated: a file of exactly `PREVIEW_SIZE_LIMIT`
bytes (5 MB, i.e. "at the limit") is NOT reported with the size notice — it
falls through to a normal (here hex) preview, because the code tests strict
`>`. -/
theorem claim_C8_cex :
    get_file_preview (List.replicate PREVIEW_SIZE_LIMIT 0) false
      = Preview.hexPreview (List.replicate 256 0)
    ∧ get_file_preview (List.replicate PREVIEW_SIZE_LIMIT 0) false
      ≠ Preview.tooLarge PREVIEW_SIZE_LIMIT := by
  have htake : ((List.replicate PREVIEW_SIZE_LIMIT (0 : Nat)).take PREVIEW_SIZE_LIMIT).take 256
      = List.replicate 256 0 := by
    rw [List.take_replicate, Nat.min_self, List.take_replicate]
    congr 1
  have hg : get_file_preview (List.replicate PREVIEW_SIZE_LIMIT (0 : Nat)) false
      = Preview.hexPreview (List.replicate 256 0) := by
    unfold get_file_preview
    rw [if_neg (by rw [List.length_replicate]; decide),
      if_neg (by rw [List.length_replicate]; exact Nat.lt_irrefl _)]
    show Preview.hexPreview
        (((List.replicate PREVIEW_SIZE_LIMIT (0 : Nat)).take PREVIEW_SIZE_LIMIT).take 256)
      = Preview.hexPreview (List.replicate 256 0)
    rw [htake]
  refine ⟨hg, ?_⟩
  rw [hg]
  intro h
  exact Preview.noConfusion h

/-- Witness for C8 (amended): a decodable one-line text file is shown as a
single-line text preview; an undecodable byte is shown as a hex preview. -/
theorem claim_C8_witness :
    get_file_preview [104, 105] true
      = Preview.textPreview ((splitlines ['h', 'i']).take PREVIEW_LINES_LIMIT)
          (decide ((splitlines ['h', 'i']).length > PREVIEW_LINES_LIMIT))
    ∧ get_file_preview [255] true
      = Preview.hexPreview ((([255] : Bytes).take PREVIEW_SIZE_LIMIT).take 256) := by
  constructor
  · exact (claim_C8 [104, 105] true).2.2.2.2 ['h', 'i'] (by decide) (by decide) rfl
      (by decide)
  · exact (claim_C8 [255] true).2.2.2.1 (by decide) (by decide) (Or.inr (by decide))

/-- Claim C9 (amended): the archive page's clear action resets the result
fields and regenerates every input-widget identity (the generation counter in
each key increments, so all keys change); the cipher page's clear action
resets the result fields but does NOT regenerate widget identity — its widget
keys are unchanged, so previously-entered values can reappear. -/
theorem claim_C9 (s : ZipPageState) (c : CipherPageState) :
    zip_clear s = ⟨none, none, none, s.zip_clear_trigger + 1⟩
    ∧ zip_widget_keys (zip_clear s) ≠ zip_widget_keys s
    ∧ cipher_clear c = ⟨none, none, none⟩
    ∧ cipher_widget_keys (cipher_clear c) = cipher_widget_keys c := by
  refine ⟨rfl, ?_, rfl, rfl⟩
  intro h
  unfold zip_widget_keys at h
  injection h with h1 _
  have h2 := congrArg String.data h1
  simp only [String.data_append] at h2
  have h3 := List.append_cancel_left h2
  have h4 : natRepr (s.zip_clear_trigger + 1) = natRepr s.zip_clear_trigger := h3
  have h5 := natRepr_injective _ _ h4
  omega

/-- Counterexample for C9 as stated: on the cipher page, the clear action
leaves every widget identity unchanged (fixed keys `pwd1`/`pwd2`, no key on
the uploader and filename fields), so the claim that both tools regenerate
the input widgets' identity fails. -/
theorem claim_C9_cex :
    cipher_clear ⟨some [1], some "a.enc", some Status.success⟩
      = ⟨none, none, none⟩
    ∧ cipher_widget_keys (cipher_clear ⟨some [1], some "a.enc", some Status.success⟩)
      = cipher_widget_keys ⟨some [1], some "a.enc", some Status.success⟩ :=
  ⟨rfl, rfl⟩

/-- Claim C10: in the archive tool, a non-empty output filename not ending in
`.zip` (case-insensitively) gets `.zip` appended, with a warning shown; a
name already ending in `.zip` is used unchanged; the normalized name is used
for the spawned command's output path and, on success, for the stored
(downloadable) filename. -/
theorem claim_C10 (name upname : String) (bytes : Bytes) (p pc : String) (env : Env)
    (hv : zip_validate p pc name = none) (hr : env.raiseInTry = none) :
    (strEndsWith (strToLower name) ".zip" = false →
        actual_output_filename name = name ++ ".zip"
        ∧ Event.suffixWarning (name ++ ".zip")
            ∈ (zip_run upname bytes p pc name env).events)
    ∧ (strEndsWith (strToLower name) ".zip" = true →
        actual_output_filename name = name
        ∧ ∀ a, Event.suffixWarning a ∉ (zip_run upname bytes p pc name env).events)
    ∧ Event.spawn
        (zip_full_command (zip_args p (path_join "TMP" (actual_output_filename name))
          (path_join "TMP" upname))) ZIP_TIMEOUT
        ∈ (zip_run upname bytes p pc name env).events
    ∧ ((run_zip_result env.proc).success = true → env.outputFileAfter.isSome = true →
        (zip_run upname bytes p pc name env).session.output_zip_filename
          = some (actual_output_filename name)) := by
  refine ⟨?_, ?_, ?_, ?_⟩
  · intro hend
    have hact : actual_output_filename name = name ++ ".zip" := by
      unfold actual_output_filename
      rw [if_pos hend]
    refine ⟨hact, ?_⟩
    rw [← hact, zip_run_eq_finally _ _ _ _ _ _ hv]
    have hw : (!(strEndsWith (strToLower name) ".zip")) = true := by
      rw [hend]
      rfl
    rw [hw]
    exact zip_finally_events_sub _ _ _
      (suffix_warning_zip_try_mem upname bytes (actual_output_filename name) p env)
  · intro hend
    have hact : actual_output_filename name = name := by
      unfold actual_output_filename
      rw [if_neg (by simp [hend])]
    refine ⟨hact, ?_⟩
    intro a hmem
    rw [zip_run_eq_finally _ _ _ _ _ _ hv] at hmem
    have hw : (!(strEndsWith (strToLower name) ".zip")) = false := by
      rw [hend]
      rfl
    rw [hw] at hmem
    rcases zip_finally_mem _ _ _ hmem with h2 | ⟨m, h2⟩ | h2
    · exact suffix_warning_zip_try_not_mem upname bytes _ p env a h2
    · exact Event.noConfusion h2
    · exact Event.noConfusion h2
  · rw [zip_run_eq_finally _ _ _ _ _ _ hv]
    exact zip_finally_events_sub _ _ _ (spawn_mem_zip_try upname bytes _ _ p env hr)
  · intro hsucc hsome
    rw [zip_run_eq_finally _ _ _ _ _ _ hv, zip_finally_session,
      zip_try_session _ _ _ _ _ _ hr, if_pos (by rw [hsucc, hsome]; rfl)]

/-- Witness for C10: `archive` becomes `archive.zip` with the warning
shown. -/
theorem claim_C10_witness :
    actual_output_filename "archive" = "archive" ++ ".zip"
    ∧ Event.suffixWarning ("archive" ++ ".zip")
        ∈ (zip_run "a.txt" [1] "pw" "pw" "archive"
            ⟨ProcOutcome.completed 0 "" "", some [9], none, false⟩).events := by
  exact (claim_C10 "archive" "a.txt" [1] "pw" "pw"
    ⟨ProcOutcome.completed 0 "" "", some [9], none, false⟩ (by decide) rfl).1 (by decide)

end FileUtility
